import Mathlib

set_option maxHeartbeats 1000000

/-!
Verification of the trust-region nonlinear least-squares optimizer of the
DESC repository, shallowly embedded over exact rational arithmetic.

The embedded sources are `desc/optimize/_least_squares.py` and
`desc/optimize/derivative.py`.  Vectors are functions `Fin n → ℚ` and
matrices are Mathlib matrices over `ℚ`.  External numerical kernels that the
source imports from files outside the provided sources (the QR factorization
`qr`, scipy's `qr_update`, the Cholesky factor rank-1 update `chol_U_update`,
the floating square root, and the Euclidean vector norm) are passed as
explicit function parameters, so every theorem quantifies over them or fixes
a concrete instance.  Helpers that live in the repository files
`desc/optimize/utils.py` and `desc/optimize/tr_subproblems.py` (not present
in the sources) are modelled from the specification; each such definition is
marked in its doc comment.
-/

namespace DescOpt

open Matrix

abbrev Vec (n : ℕ) := Fin n → ℚ

abbrev Mat (m n : ℕ) := Matrix (Fin m) (Fin n) ℚ

/-- `np.eye(m, n)`: ones on the main diagonal, zeros elsewhere. -/
def eyeRect (m n : ℕ) : Mat m n :=
  Matrix.of fun i j => if (i : ℕ) = (j : ℕ) then 1 else 0

/-- Infinity norm `np.linalg.norm(v, ord=np.inf)` of a rational vector
(maximum absolute entry, `0` for the empty vector). -/
def normInfQ {k : ℕ} (v : Fin k → ℚ) : ℚ :=
  Finset.univ.fold max 0 fun i => |v i|

/-- `np.arange(start, stop, step)` over naturals (`step > 0` in all uses). -/
def arange (start stop step : ℕ) : List ℕ :=
  (List.range ((stop - start + step - 1) / step)).map fun k => start + k * step

/-! ## Embedding of `desc/optimize/derivative.py` -/

/-- Embedding of `compute_jac_scale` (`derivative.py`, lines 383-389).
`sqrtQ` stands for the external floating square root (`** 0.5` in the
source), applied to the sum of squares of each column of `A`. -/
def compute_jac_scale {m n : ℕ} (sqrtQ : ℚ → ℚ) (A : Mat m n)
    (prev_scale_inv : Option (Vec n)) : Vec n × Vec n :=
  let scale_inv0 : Vec n := fun j => sqrtQ (∑ i, A i j ^ 2)
  let scale_inv1 : Vec n := fun j => if scale_inv0 j = 0 then 1 else scale_inv0 j
  let scale_inv : Vec n :=
    match prev_scale_inv with
    | none => scale_inv1
    | some p => fun j => max (scale_inv1 j) (p j)
  (fun j => 1 / scale_inv j, scale_inv)

/-- The `exception_strategy` option of `CholeskyHessian`. -/
inductive ExcStrategy
  | skipUpdate
  | dampUpdate
deriving DecidableEq

/-- Default `min_curvature` chosen in `CholeskyHessian.__init__` for each
exception strategy (`1e-8` for skip, `0.2` for damp). -/
def default_min_curvature : ExcStrategy → ℚ
  | .skipUpdate => 1 / 100000000
  | .dampUpdate => 1 / 5

/-- Initialization tag of a `CholeskyHessian` (`self._initialization`). -/
inductive CholInitTag
  | eye
  | hessfun
  | auto
  | initHess
deriving DecidableEq

/-- Mutable state of a `CholeskyHessian`: the upper factor `U` with
`H = Uᵀ·U`, the initialized flag and the initialization tag. -/
structure CholState (n : ℕ) where
  U : Mat n n
  initialized : Bool
  tag : CholInitTag
deriving DecidableEq

/-- Embedding of `CholeskyHessian.dot`: `Uᵀ·(U·x)`. -/
def cholesky_dot {n : ℕ} (U : Mat n n) (x : Vec n) : Vec n :=
  Uᵀ.mulVec (U.mulVec x)

/-- Embedding of `CholeskyHessian._auto_scale_init` (Oren-Luenberger
heuristic): scales `U` by the square root of `‖Δgrad‖²/|Δgrad·Δx|`.
`np.dot` of two vectors is embedded as the exact dot product. -/
def auto_scale_init {n : ℕ} (sqrtQ : ℚ → ℚ) (st : CholState n)
    (delta_x delta_grad : Vec n) : CholState n :=
  let s_norm2 := delta_x ⬝ᵥ delta_x
  let y_norm2 := delta_grad ⬝ᵥ delta_grad
  let ys := |delta_grad ⬝ᵥ delta_x|
  let scale : ℚ := if ys = 0 ∨ y_norm2 = 0 ∨ s_norm2 = 0 then 1 else y_norm2 / ys
  { st with U := sqrtQ scale • st.U, initialized := true }

/-- The two sequential rank-1 Cholesky factor updates at the end of
`CholeskyHessian._bfgs_update`:
`U ← chol_U_update(U, u, 1/sy)` then `U ← chol_U_update(U, v, -1/sBs)`.
`cholUpd` stands for `chol_U_update` from the repository file
`desc/optimize/utils.py`, which is not present in the sources. -/
def bfgs_apply {n : ℕ} (cholUpd : Mat n n → Vec n → ℚ → Mat n n)
    (U : Mat n n) (u : Vec n) (sy : ℚ) (v : Vec n) (sBs : ℚ) : Mat n n :=
  cholUpd (cholUpd U u (1 / sy)) v (-(1 / sBs))

/-- Embedding of `CholeskyHessian._bfgs_update` (`derivative.py`, lines
202-235).  Divisions are total rational division; the Python source performs
the corresponding floating divisions unguarded. -/
def bfgs_update {n : ℕ} (cholUpd : Mat n n → Vec n → ℚ → Mat n n)
    (min_curvature : ℚ) (strategy : ExcStrategy)
    (U : Mat n n) (delta_x delta_grad : Vec n) : Mat n n :=
  if delta_x = 0 then U
  else if delta_grad = 0 then U
  else
    let s := delta_x
    let y := delta_grad
    let sy := s ⬝ᵥ y
    let Bs := cholesky_dot U s
    let sBs := Bs ⬝ᵥ s
    if sy ≤ min_curvature * sBs then
      match strategy with
      | .skipUpdate => U
      | .dampUpdate =>
        let update_factor := (1 - min_curvature) / (1 - sy / sBs)
        let y2 : Vec n := fun i => update_factor * y i + (1 - update_factor) * Bs i
        bfgs_apply cholUpd U y2 (s ⬝ᵥ y2) Bs sBs
    else
      bfgs_apply cholUpd U y sy Bs sBs

/-- Embedding of `CholeskyHessian.update` (`derivative.py`, lines 169-200).
`recomputeU` stands for the factor produced by `CholeskyHessian.recompute`
at a point (the composition of the external `hessfun`, `make_spd` and the
Cholesky factorization); as in the source, the recompute taken on an
uninitialized `hessfun` model does not set the initialized flag. -/
def cholesky_update {n : ℕ} (cholUpd : Mat n n → Vec n → ℚ → Mat n n)
    (sqrtQ : ℚ → ℚ) (recomputeU : Vec n → Mat n n)
    (min_curvature : ℚ) (strategy : ExcStrategy) (st : CholState n)
    (x_new x_old grad_new grad_old : Vec n) : CholState n :=
  let delta_x := x_new - x_old
  let delta_grad := grad_new - grad_old
  if delta_x = 0 then st
  else if delta_grad = 0 then st
  else
    let st1 :=
      if ¬ st.initialized then
        match st.tag with
        | .auto => auto_scale_init sqrtQ st delta_x delta_grad
        | .hessfun => { st with U := recomputeU x_new }
        | _ => st
      else st
    { st1 with U := bfgs_update cholUpd min_curvature strategy st1.U delta_x delta_grad }

/-- Initialization tag of a `QRJacobian` (`self._initialization`). -/
inductive QRInitTag
  | eye
  | jacfun
  | initJac
deriving DecidableEq

/-- Mutable state of a `QRJacobian`: the factors `Q` (m×n) and `R` (n×n)
with `A = Q·R`, the initialized flag and the initialization tag. -/
structure QRState (m n : ℕ) where
  Q : Mat m n
  R : Mat n n
  initialized : Bool
  tag : QRInitTag
deriving DecidableEq

/-- Embedding of `QRJacobian.__init__` (`derivative.py`, lines 260-302).
`qrFac` stands for the external economic QR factorization from the backend.
The Python values `init_jac=None` and `init_jac="auto"` (the latter only
reaches this constructor together with `jacfun=None`) are both embedded as
`none`; strings other than `"auto"` raise at construction and are not
modelled. -/
def qrjacobian_init (m n : ℕ) (qrFac : Mat m n → Mat m n × Mat n n)
    (init_jac : Option (Mat m n)) (hasJacfun : Bool) : QRState m n :=
  match init_jac, hasJacfun with
  | none, false => ⟨eyeRect m n, eyeRect n n, true, .eye⟩
  | none, true => ⟨eyeRect m n, eyeRect n n, false, .jacfun⟩
  | some A, _ =>
    let QR := qrFac A
    ⟨QR.1, QR.2, true, .initJac⟩

/-- Embedding of `QRJacobian.recompute` (`derivative.py`, lines 320-324):
refactorize the exact Jacobian of `jacfun` at `x`.  The source calls
`self._jacfun` unconditionally; the driver only schedules recomputes when
`jac` is callable, so the `none` case is unreachable there and is embedded
as the identity. -/
def qrjacobian_recompute {m n : ℕ} (qrFac : Mat m n → Mat m n × Mat n n)
    (jacfun : Option (Vec n → Mat m n)) (st : QRState m n) (x : Vec n) :
    QRState m n :=
  match jacfun with
  | some jf =>
    let QR := qrFac (jf x)
    { st with Q := QR.1, R := QR.2 }
  | none => st

/-- Embedding of `QRJacobian._broyden_update` (`derivative.py`, lines
347-359).  `qrUpd` stands for the external `scipy.linalg.qr_update`;
`np.linalg.norm(delta_x) ** 2` is embedded exactly as the dot product
`delta_x ⬝ᵥ delta_x`. -/
def broyden_update {m n : ℕ}
    (qrUpd : Mat m n → Mat n n → Vec m → Vec n → Mat m n × Mat n n)
    (st : QRState m n) (delta_x : Vec n) (delta_f : Vec m) : QRState m n :=
  if delta_x = 0 then st
  else if delta_f = 0 then st
  else
    let u : Vec m := fun i =>
      (delta_f i - (st.Q.mulVec (st.R.mulVec delta_x)) i) / (delta_x ⬝ᵥ delta_x)
    let v := delta_x
    let QR := qrUpd st.Q st.R u v
    { st with Q := QR.1, R := QR.2 }

/-- Embedding of `QRJacobian.update` (`derivative.py`, lines 326-345).
As in the source, a recompute taken on an uninitialized `jacfun` model does
not set the initialized flag. -/
def qrjacobian_update {m n : ℕ}
    (qrUpd : Mat m n → Mat n n → Vec m → Vec n → Mat m n × Mat n n)
    (qrFac : Mat m n → Mat m n × Mat n n) (jacfun : Option (Vec n → Mat m n))
    (st : QRState m n) (x_new x_old : Vec n) (f_new f_old : Vec m) :
    QRState m n :=
  let delta_x := x_new - x_old
  let delta_f := f_new - f_old
  if delta_x = 0 then st
  else if delta_f = 0 then st
  else
    let st1 :=
      if ¬ st.initialized then
        match st.tag with
        | .jacfun => qrjacobian_recompute qrFac jacfun st x_new
        | _ => st
      else st
    broyden_update qrUpd st1 delta_x delta_f

/-- Embedding of `QRJacobian.get_matrix`: the represented matrix `Q·R`. -/
def qr_matrix {m n : ℕ} (st : QRState m n) : Mat m n := st.Q * st.R

/-- Embedding of `QRJacobian.get_scale`: `compute_jac_scale` on `R`. -/
def qr_get_scale {m n : ℕ} (sqrtQ : ℚ → ℚ) (st : QRState m n)
    (prev_scale_inv : Option (Vec n)) : Vec n × Vec n :=
  compute_jac_scale sqrtQ st.R prev_scale_inv

/-- One step of backward substitution: solve row `i` of `R·x = b` assuming
the entries of `x` below `i` are already in place. -/
def solve_step {n : ℕ} (R : Mat n n) (b : Vec n) (x : Vec n) (i : Fin n) : Vec n :=
  Function.update x i
    ((b i - ∑ j : Fin n, if (i : ℕ) < (j : ℕ) then R i j * x j else 0) / R i i)

/-- Backward substitution for an upper-triangular system `R·x = b`. -/
def solve_upper {n : ℕ} (R : Mat n n) (b : Vec n) : Vec n :=
  (List.finRange n).reverse.foldl (solve_step R b) 0

/-- Embedding of `QRJacobian.solve`: `solve_triangular(R, Qᵀ·b)`.  The
backend `solve_triangular` is not in the sources; per the specification
the solve fails (`LinAlgError`) when a diagonal factor entry is zero, which
is the error condition modelled here. -/
def qr_solve {m n : ℕ} (st : QRState m n) (b : Vec m) : Except Unit (Vec n) :=
  if ∃ i, st.R i i = 0 then .error ()
  else .ok (solve_upper st.R (st.Qᵀ.mulVec b))

/-! ## Embedding of `desc/optimize/_least_squares.py`

The driver.  Helpers from `desc/optimize/utils.py` and
`desc/optimize/tr_subproblems.py` (`OptimizeResult`, `status_messages`,
`check_termination`, `evaluate_quadratic_form`, `update_tr_radius`, the
subproblem solvers) are not in the provided sources and are modelled from
the specification where their behaviour matters. -/

/-- Modelled from the spec: the entries of `status_messages` used by the
driver; each termination reason has a dedicated message. -/
def msg_ftol : String := "ftol condition satisfied"

/-- Modelled from the spec: xtol termination message. -/
def msg_xtol : String := "xtol condition satisfied"

/-- Modelled from the spec: gtol termination message. -/
def msg_gtol : String := "gtol condition satisfied"

/-- Modelled from the spec: maximum iterations message. -/
def msg_maxiter : String := "maximum number of iterations reached"

/-- Modelled from the spec: function evaluation budget message. -/
def msg_max_nfev : String := "maximum number of function evaluations reached"

/-- Modelled from the spec: gradient evaluation budget message. -/
def msg_max_ngev : String := "maximum number of gradient evaluations reached"

/-- Modelled from the spec: Jacobian evaluation budget message. -/
def msg_max_njev : String := "maximum number of jacobian evaluations reached"

/-- Modelled from the spec: the message `status_messages["err"]` used on the
fatal linear-algebra termination path. -/
def msg_err : String := "linear algebra error in trust region subproblem"

/-- Modelled from the spec: the message `status_messages["callback"]` used
when the callback requests termination. -/
def msg_callback : String := "callback requested termination"

/-- Modelled from the spec and the keyword arguments at the construction
sites in `_least_squares.py`: the `OptimizeResult` record.  The source
record is a dict; `jac` and `hess` are optional because different
termination paths populate different keys.  The field `fvec` models the
key `fun`. -/
structure OptimizeResult (m n : ℕ) where
  x : Vec n
  success : Option Bool
  cost : ℚ
  fvec : Vec m
  grad : Vec n
  jac : Option (Mat m n) := none
  hess : Option (Mat m n) := none
  optimality : ℚ
  nfev : ℕ
  ngev : ℕ
  njev : ℕ
  nit : ℕ
  message : String
deriving DecidableEq

/-- A rational extended with infinity, for the driver locals initialized to
`np.inf` (`step_norm`, `actual_reduction`, `dg_norm`). -/
inductive QInf
  | val (q : ℚ)
  | top
deriving DecidableEq

/-- `a < r` for an extended rational `a` and a rational `r`
(`np.inf < r` is false). -/
def QInf.ltb : QInf → ℚ → Bool
  | .val q, r => decide (q < r)
  | .top, _ => false

/-- Modelled from the spec: `check_termination` from the repository file
`desc/optimize/utils.py` (not in the sources), with the argument list of the
call site in `_least_squares.py`.  Success when the cost change is below
`ftol · cost` with adequate model agreement (`ratio > 1/4`), when the step
norm is below `xtol·(xtol + ‖x‖)`, or when `‖g‖ < gtol`; failure when the
iteration or evaluation budgets are exhausted; a `none` tolerance disables
its check; exactly one reason is reported, in this order.  `dg_norm` is
accepted by the source signature and unused here. -/
def check_termination (actual_reduction : QInf) (cost : ℚ) (step_norm : QInf)
    (x_norm : ℚ) (dg_norm : QInf) (g_norm : ℚ) (ratio : ℚ)
    (ftol xtol gtol : Option ℚ) (iteration maxiter : ℕ)
    (nfev max_nfev ngev max_ngev njev max_njev : ℕ) : Option Bool × String :=
  let ftolOk := match ftol with
    | some t => actual_reduction.ltb (t * cost) && decide ((1 : ℚ)/4 < ratio)
    | none => false
  let xtolOk := match xtol with
    | some t => step_norm.ltb (t * (t + x_norm))
    | none => false
  let gtolOk := match gtol with
    | some t => decide (g_norm < t)
    | none => false
  if ftolOk then (some true, msg_ftol)
  else if xtolOk then (some true, msg_xtol)
  else if gtolOk then (some true, msg_gtol)
  else if maxiter ≤ iteration then (some false, msg_maxiter)
  else if max_nfev < nfev then (some false, msg_max_nfev)
  else if max_ngev < ngev then (some false, msg_max_ngev)
  else if max_njev < njev then (some false, msg_max_njev)
  else (none, "")

/-- Modelled from the spec: `update_tr_radius` from the repository file
`desc/optimize/tr_subproblems.py` (not in the sources).  The ratio of actual
to predicted reduction is treated as `≤ 0` (here `0`) when the predicted
reduction is not positive; the radius shrinks by `decrease_ratio` when the
ratio is below `decrease_threshold` (floored at the minimum radius), grows
by `increase_ratio` when the ratio exceeds `increase_threshold` and the step
hit the boundary (capped at the maximum radius), and is otherwise unchanged.
The geodesic-acceleration exception of the spec is not modelled (the claims
run with geodesic acceleration disabled); `step_h_norm` is accepted by the
call-site signature and unused here.  Returns the new radius and the
ratio. -/
def update_tr_radius (trust_radius actual_reduction predicted_reduction
    step_h_norm : ℚ) (hits_boundary : Bool)
    (max_trust_radius min_trust_radius : ℚ)
    (increase_threshold increase_ratio decrease_threshold decrease_ratio : ℚ) :
    ℚ × ℚ :=
  let ratio := if predicted_reduction ≤ 0 then 0
    else actual_reduction / predicted_reduction
  let tr :=
    if ratio < decrease_threshold then
      max min_trust_radius (decrease_ratio * trust_radius)
    else if increase_threshold < ratio ∧ hits_boundary then
      min max_trust_radius (increase_ratio * trust_radius)
    else trust_radius
  (tr, ratio)

/-- Modelled from the spec: `evaluate_quadratic_form` from the repository
file `desc/optimize/utils.py` (not in the sources).  Value of the local
least-squares quadratic model at the step `p` given in scaled coordinates:
`cost + g·(S·p) + ½‖R·(S·p)‖²` with `S = diag(scale)`, the Gauss-Newton
curvature `JᵀJ = RᵀR` evaluated through the factor `R` as in
`QRJacobian.quadratic`. -/
def evaluate_quadratic_form {m n : ℕ} (p : Vec n) (cost : ℚ) (g : Vec n)
    (st : QRState m n) (scale : Vec n) : ℚ :=
  let ps : Vec n := fun i => scale i * p i
  cost + g ⬝ᵥ ps + 1/2 * ((st.R.mulVec ps) ⬝ᵥ (st.R.mulVec ps))

/-- Modelled from the spec: `solve_trust_region_dogleg` from the repository
file `desc/optimize/tr_subproblems.py` (not in the sources), over the
`QRJacobian` model.  The Gauss-Newton step solves the normal equations
`RᵀR·p = -g` through the factors as `p = -R⁻¹Qᵀf` and is converted to
scaled coordinates; if it fits in the radius it is returned as an interior
point.  Otherwise the Cauchy point `-(gᵀg/gᵀAg)·g` (in scaled coordinates)
is truncated to the boundary if it is long enough, and otherwise the point
of the segment from the Cauchy point to the Gauss-Newton point with norm
exactly `Δ` is returned (a scalar quadratic solved with the external square
root `sqrtQ`).  A singular factor makes the underlying solve fail
(`LinAlgError`). -/
def solve_trust_region_dogleg {m n : ℕ} (norm2 : Vec n → ℚ) (sqrtQ : ℚ → ℚ)
    (g : Vec n) (st : QRState m n) (scale : Vec n) (trust_radius : ℚ)
    (f : Vec m) : Except Unit (Vec n × Bool) :=
  match qr_solve st f with
  | .error e => .error e
  | .ok pn =>
    let p_gn : Vec n := fun i => -(pn i) / scale i
    if norm2 p_gn ≤ trust_radius then .ok (p_gn, false)
    else
      let gs : Vec n := fun i => scale i * g i
      let Ags : Vec n := fun i => scale i * gs i
      let gAg := (st.R.mulVec Ags) ⬝ᵥ (st.R.mulVec Ags)
      let p_sd : Vec n := fun i => -((gs ⬝ᵥ gs) / gAg) * gs i
      if trust_radius ≤ norm2 p_sd then
        .ok (fun i => (trust_radius / norm2 p_sd) * p_sd i, true)
      else
        let d : Vec n := p_gn - p_sd
        let a := d ⬝ᵥ d
        let b := 2 * (p_sd ⬝ᵥ d)
        let c := p_sd ⬝ᵥ p_sd - trust_radius ^ 2
        let t := (-b + sqrtQ (b ^ 2 - 4 * a * c)) / (2 * a)
        .ok (fun i => p_sd i + t * d i, true)

/-- The `jac` argument of `least_squares`: a callable Jacobian function or a
string sentinel (only `"broyden"` is accepted). -/
inductive JacArg (m n : ℕ)
  | jacfn (jf : Vec n → Mat m n)
  | sentinel (s : String)

/-- Whether the original `jac` argument is callable. -/
def JacArg.isCallable {m n : ℕ} : JacArg m n → Bool
  | .jacfn _ => true
  | .sentinel _ => false

/-- The `x_scale` argument: a fixed vector of scales, or the string
`"jac"`/`"auto"` requesting Jacobian-driven scaling. -/
inductive XScaleArg (n : ℕ)
  | fixed (v : Vec n)
  | auto

/-- The recognized keys of the `options` dict with their popped values
(`none` means the key is absent and the default applies), plus the list of
unrecognized keys left in the dict after all pops.  The values of
`gnorm_ord` and `xnorm_ord` are modelled only for key accounting: the
embedding fixes the default norms (infinity norm for gradients, the
external `norm2` for points and steps). -/
structure LSOptions where
  max_nfev : Option ℕ := none
  max_ngev : Option ℕ := none
  max_njev : Option ℕ := none
  gnorm_ord : Option Unit := none
  xnorm_ord : Option Unit := none
  step_accept_threshold : Option ℚ := none
  jac_recompute_interval : Option ℕ := none
  ga_fd_step : Option ℚ := none
  ga_accept_threshold : Option ℚ := none
  return_all : Option Bool := none
  return_tr : Option Bool := none
  initial_trust_radius : Option ℚ := none
  max_trust_radius : Option ℚ := none
  min_trust_radius : Option ℚ := none
  tr_increase_threshold : Option ℚ := none
  tr_decrease_threshold : Option ℚ := none
  tr_increase_ratio : Option ℚ := none
  tr_decrease_ratio : Option ℚ := none
  unknownKeys : List String := []

/-- Default of the `step_accept_threshold` option. -/
def default_step_accept_threshold : ℚ := 15 / 100

/-- The external collaborators of the driver: the residual and gradient
functions, and the numerical kernels that live outside the provided sources
(Euclidean norm, floating square root, QR factorization, scipy's
`qr_update`, the two trust-region subproblem solvers of the missing
`tr_subproblems.py`, and the backend triangular solve used by the
geodesic-acceleration correction, shape-valid when `m = n`). -/
structure Collab (m n : ℕ) where
  f_fun : Vec n → Vec m
  g_fun : Vec n → Vec n
  norm2 : Vec n → ℚ
  sqrtQ : ℚ → ℚ
  qrFac : Mat m n → Mat m n × Mat n n
  qrUpd : Mat m n → Mat n n → Vec m → Vec n → Mat m n × Mat n n
  subDogleg : Vec n → QRState m n → Vec n → ℚ → Vec m → Except Unit (Vec n × Bool)
  subSubspace : Vec n → QRState m n → Vec n → ℚ → Vec m → Except Unit (Vec n × Bool)
  solveGA : QRState m n → Vec n → Vec n

/-- The driver configuration after the option-processing prologue of
`least_squares` (lines 124-202 of `_least_squares.py`). -/
structure LSConfig (m n : ℕ) where
  co : Collab m n
  jacfun : Option (Vec n → Mat m n)
  sub : Vec n → QRState m n → Vec n → ℚ → Vec m → Except Unit (Vec n × Bool)
  jac_scale : Bool
  ftol : Option ℚ
  xtol : Option ℚ
  gtol : Option ℚ
  maxiter : ℕ
  max_nfev : ℕ
  max_ngev : ℕ
  max_njev : ℕ
  step_accept_threshold : ℚ
  jac_recompute_iters : List ℕ
  ga_fd_step : ℚ
  ga_accept_threshold : ℚ
  max_trust_radius : ℚ
  min_trust_radius : ℚ
  tr_increase_threshold : ℚ
  tr_decrease_threshold : ℚ
  tr_increase_ratio : ℚ
  tr_decrease_ratio : ℚ
  callback : Option (Vec n → OptimizeResult m n → Bool)

/-- The locals of the driver loop that are carried across iterations.
`resultVar` models the Python local variable `result`: it is assigned only
on the termination paths (each immediately followed by `break`), so it is
never bound when the callback invocation site reads it. -/
structure LoopState (m n : ℕ) where
  x : Vec n
  f : Vec m
  cost : ℚ
  g : Vec n
  jacSt : QRState m n
  scale : Vec n
  scale_inv : Vec n
  trust_radius : ℚ
  g_norm : ℚ
  x_norm : ℚ
  step_norm : QInf
  actual_reduction : QInf
  dg_norm : QInf
  ratio : ℚ
  nfev : ℕ
  ngev : ℕ
  njev : ℕ
  iteration : ℕ
  resultVar : Option (OptimizeResult m n)
deriving DecidableEq

/-- Python runtime errors the driver can raise outside `ValueError`
validation: reading the unbound local `result` at the callback site. -/
inductive PyError
  | unboundLocalResult
deriving DecidableEq

/-- Configuration `ValueError`s raised by the prologue of
`least_squares`. -/
inductive ConfigError
  | badMethod
  | badJac
  | unknownOptions
deriving DecidableEq

/-- Result of running the driver. -/
inductive LSOutcome (m n : ℕ)
  | res (r : OptimizeResult m n)
  | configError (e : ConfigError)
  | pyError (e : PyError)
  | fuelOut
deriving DecidableEq

/-- The result normally extracted from an `LSOutcome`. -/
def LSOutcome.getRes {m n : ℕ} : LSOutcome m n → Option (OptimizeResult m n)
  | .res r => some r
  | _ => none

/-- The `OptimizeResult` built on the regular termination and
callback-termination paths of the driver (keyword `jac=jac.get_matrix()`). -/
def result_of {m n : ℕ} (st : LoopState m n) (success : Option Bool)
    (message : String) : OptimizeResult m n :=
  { x := st.x
    success := success
    cost := st.cost
    fvec := st.f
    grad := st.g
    jac := some (qr_matrix st.jacSt)
    hess := none
    optimality := st.g_norm
    nfev := st.nfev
    ngev := st.ngev
    njev := st.njev
    nit := st.iteration
    message := message }

/-- The `OptimizeResult` built on the `LinAlgError` path of the driver
(lines 272-287 of `_least_squares.py`); as in the source, this construction
passes the materialized matrix under the keyword `hess` and passes no
`jac` keyword. -/
def result_of_err {m n : ℕ} (st : LoopState m n) : OptimizeResult m n :=
  { x := st.x
    success := some false
    cost := st.cost
    fvec := st.f
    grad := st.g
    jac := none
    hess := some (qr_matrix st.jacSt)
    optimality := st.g_norm
    nfev := st.nfev
    ngev := st.ngev
    njev := st.njev
    nit := st.iteration
    message := msg_err }

/-- Outcome of one pass of the driver loop body. -/
inductive IterOut (m n : ℕ)
  | done (r : OptimizeResult m n)
  | next (st : LoopState m n)
  | fail (e : PyError)

/-- The scheduled-recompute phase at the top of the loop body (lines
222-226): recompute the exact Jacobian and refresh the scale when the
iteration index is in the recompute schedule. -/
def recompute_phase {m n : ℕ} (cfg : LSConfig m n) (st : LoopState m n) :
    LoopState m n :=
  if st.iteration ∈ cfg.jac_recompute_iters then
    let jacSt := qrjacobian_recompute cfg.co.qrFac cfg.jacfun st.jacSt st.x
    let sc := if cfg.jac_scale
      then qr_get_scale cfg.co.sqrtQ jacSt (some st.scale_inv)
      else (st.scale, st.scale_inv)
    { st with
      jacSt := jacSt
      njev := st.njev + 1
      scale := sc.1
      scale_inv := sc.2 }
  else st

/-- The loop body from the subproblem solution onward (lines 289-391):
optional geodesic acceleration, predicted and actual reduction, trust
radius update, accept/reject, derivative model and scale update, callback
invocation, iteration count. -/
def lsq_after_sub {m n : ℕ} (cfg : LSConfig m n) (st : LoopState m n)
    (step_h0 : Vec n) (hits_boundary : Bool) : IterOut m n :=
  let ga : Vec n × ℚ :=
    if 0 < cfg.ga_accept_threshold then
      let g1 := cfg.co.g_fun fun i => st.x i + cfg.ga_fd_step * step_h0 i * st.scale i
      let dg : Vec n := fun i => (g1 i - st.g i) / cfg.ga_fd_step ^ 2
      let sol := cfg.co.solveGA st.jacSt dg
      let ga_step_h : Vec n := fun i =>
        -(st.scale_inv i) * sol i + 1 / cfg.ga_fd_step * step_h0 i
      let ga_ratio := cfg.co.norm2 (fun i => st.scale i * ga_step_h i) /
        cfg.co.norm2 (fun i => st.scale i * step_h0 i)
      (if ga_ratio < cfg.ga_accept_threshold then step_h0 + ga_step_h else step_h0,
        ga_ratio)
    else (step_h0, -1)
  let step_h := ga.1
  let ngev1 := if 0 < cfg.ga_accept_threshold then st.ngev + 1 else st.ngev
  let predicted_reduction :=
    st.cost - evaluate_quadratic_form step_h st.cost st.g st.jacSt st.scale
  let step : Vec n := fun i => st.scale i * step_h i
  let step_norm := cfg.co.norm2 step
  let step_h_norm := cfg.co.norm2 step_h
  let x_new := st.x + step
  let f_new := cfg.co.f_fun x_new
  let cost_new := 1/2 * (f_new ⬝ᵥ f_new)
  let nfev1 := st.nfev + 1
  let actual_reduction := st.cost - cost_new
  let trr := update_tr_radius st.trust_radius actual_reduction
    predicted_reduction step_h_norm hits_boundary cfg.max_trust_radius
    cfg.min_trust_radius cfg.tr_increase_threshold cfg.tr_increase_ratio
    cfg.tr_decrease_threshold cfg.tr_decrease_ratio
  if cfg.step_accept_threshold < trr.2 then
    let g_new := cfg.co.g_fun x_new
    let dg := g_new - st.g
    let jacSt := if (st.iteration + 1) ∈ cfg.jac_recompute_iters then st.jacSt
      else qrjacobian_update cfg.co.qrUpd cfg.co.qrFac cfg.jacfun st.jacSt
        x_new st.x f_new st.f
    let sc := if cfg.jac_scale
      then qr_get_scale cfg.co.sqrtQ jacSt (some st.scale_inv)
      else (st.scale, st.scale_inv)
    let stAcc : LoopState m n :=
      { x := x_new
        f := f_new
        cost := cost_new
        g := g_new
        jacSt := jacSt
        scale := sc.1
        scale_inv := sc.2
        trust_radius := trr.1
        g_norm := normInfQ g_new
        x_norm := cfg.co.norm2 x_new
        step_norm := .val step_norm
        actual_reduction := .val actual_reduction
        dg_norm := .val (normInfQ dg)
        ratio := trr.2
        nfev := nfev1
        ngev := ngev1 + 1
        njev := st.njev
        iteration := st.iteration
        resultVar := st.resultVar }
    match cfg.callback with
    | some cb =>
      match st.resultVar with
      | none => .fail .unboundLocalResult
      | some r =>
        if cb x_new r then .done (result_of stAcc none msg_callback)
        else .next { stAcc with iteration := st.iteration + 1 }
    | none => .next { stAcc with iteration := st.iteration + 1 }
  else
    .next { st with
      trust_radius := trr.1
      ratio := trr.2
      step_norm := .val step_norm
      actual_reduction := .val actual_reduction
      nfev := nfev1
      ngev := ngev1 }

/-- One full pass of the `while True` loop body (lines 220-391): scheduled
recompute, termination check, subproblem solve (its `LinAlgError` caught as
a fatal termination), then the trial step. -/
def lsq_iterate {m n : ℕ} (cfg : LSConfig m n) (st0 : LoopState m n) :
    IterOut m n :=
  let st := recompute_phase cfg st0
  let term := check_termination st.actual_reduction st.cost st.step_norm
    st.x_norm st.dg_norm st.g_norm st.ratio cfg.ftol cfg.xtol cfg.gtol
    st.iteration cfg.maxiter st.nfev cfg.max_nfev st.ngev cfg.max_ngev
    st.njev cfg.max_njev
  match term.1 with
  | some b => .done (result_of st (some b) term.2)
  | none =>
    match cfg.sub st.g st.jacSt st.scale st.trust_radius st.f with
    | .error _ => .done (result_of_err st)
    | .ok sh => lsq_after_sub cfg st sh.1 sh.2

/-- The driver loop, fuel-bounded. -/
def lsq_run {m n : ℕ} (cfg : LSConfig m n) : ℕ → LoopState m n → LSOutcome m n
  | 0, _ => .fuelOut
  | fuel + 1, st =>
    match lsq_iterate cfg st with
    | .done r => .res r
    | .fail e => .pyError e
    | .next st' => lsq_run cfg fuel st'

/-- The prologue of `least_squares` (lines 111-218 of
`_least_squares.py`): initial evaluations, configuration validation (the
three `ValueError` sites, in source order: `method`, `jac`, leftover
`options` keys), option defaults, derivative model construction, scaling
and initial trust radius.  Returns the validated configuration and the
initial loop state, or the first configuration error raised. -/
def least_squares_setup {m n : ℕ} (co : Collab m n) (x0 : Vec n)
    (jac : JacArg m n) (init_jac : Option (Mat m n)) (method : String)
    (x_scale : XScaleArg n) (ftol xtol gtol : Option ℚ) (maxiter : Option ℕ)
    (callback : Option (Vec n → OptimizeResult m n → Bool))
    (options : LSOptions) :
    Except ConfigError (LSConfig m n × LoopState m n) :=
  let x := x0
  let f := co.f_fun x
  let g := co.g_fun x
  if method = "dogleg" ∨ method = "subspace" then
    let sub := if method = "dogleg" then co.subDogleg else co.subSubspace
    let cost := 1/2 * (f ⬝ᵥ f)
    let maxiter := maxiter.getD (n * 100)
    let max_nfev := options.max_nfev.getD maxiter
    let max_ngev := options.max_ngev.getD max_nfev
    let max_njev := options.max_njev.getD max_nfev
    let step_accept_threshold :=
      options.step_accept_threshold.getD default_step_accept_threshold
    let jac_recompute_freq :=
      options.jac_recompute_interval.getD (if jac.isCallable then 1 else 0)
    let ga_fd_step := options.ga_fd_step.getD (1/10)
    let ga_accept_threshold := options.ga_accept_threshold.getD 0
    let jac_recompute_iters :=
      if 0 < jac_recompute_freq ∧ jac.isCallable then
        arange 1 maxiter jac_recompute_freq
      else []
    let jacRes : Except ConfigError (QRState m n × Option (Vec n → Mat m n)) :=
      match jac with
      | .sentinel s =>
        if s = "broyden" then
          .ok (qrjacobian_init m n co.qrFac init_jac false, none)
        else .error .badJac
      | .jacfn jf => .ok (qrjacobian_init m n co.qrFac init_jac true, some jf)
    match jacRes with
    | .error e => .error e
    | .ok jacPair =>
      let jacSt := jacPair.1
      let jac_scale := match x_scale with
        | .auto => true
        | .fixed _ => false
      let sc := match x_scale with
        | .auto => qr_get_scale co.sqrtQ jacSt none
        | .fixed v => (v, fun i => 1 / v i)
      let g_norm := normInfQ g
      let x_norm := co.norm2 x
      let trust_radius :=
        options.initial_trust_radius.getD (co.norm2 fun i => x i * sc.2 i)
      let max_trust_radius := options.max_trust_radius.getD (trust_radius * 1000)
      let min_trust_radius := options.min_trust_radius.getD 0
      let tr_increase_threshold := options.tr_increase_threshold.getD (3/4)
      let tr_decrease_threshold := options.tr_decrease_threshold.getD (1/4)
      let tr_increase_ratio := options.tr_increase_ratio.getD 2
      let tr_decrease_ratio := options.tr_decrease_ratio.getD (1/4)
      let trust_radius := if trust_radius = 0 then 1 else trust_radius
      if options.unknownKeys ≠ [] then .error .unknownOptions
      else
        let cfg : LSConfig m n :=
          { co := co
            jacfun := jacPair.2
            sub := sub
            jac_scale := jac_scale
            ftol := ftol
            xtol := xtol
            gtol := gtol
            maxiter := maxiter
            max_nfev := max_nfev
            max_ngev := max_ngev
            max_njev := max_njev
            step_accept_threshold := step_accept_threshold
            jac_recompute_iters := jac_recompute_iters
            ga_fd_step := ga_fd_step
            ga_accept_threshold := ga_accept_threshold
            max_trust_radius := max_trust_radius
            min_trust_radius := min_trust_radius
            tr_increase_threshold := tr_increase_threshold
            tr_decrease_threshold := tr_decrease_threshold
            tr_increase_ratio := tr_increase_ratio
            tr_decrease_ratio := tr_decrease_ratio
            callback := callback }
        let st0 : LoopState m n :=
          { x := x
            f := f
            cost := cost
            g := g
            jacSt := jacSt
            scale := sc.1
            scale_inv := sc.2
            trust_radius := trust_radius
            g_norm := g_norm
            x_norm := x_norm
            step_norm := .top
            actual_reduction := .top
            dg_norm := .top
            ratio := 1
            nfev := 1
            ngev := 1
            njev := 0
            iteration := 0
            resultVar := none }
        .ok (cfg, st0)
  else .error .badMethod

/-- Embedding of `least_squares` (`_least_squares.py`): the prologue
followed by the fuel-bounded driver loop. -/
def least_squares {m n : ℕ} (fuel : ℕ) (co : Collab m n) (x0 : Vec n)
    (jac : JacArg m n) (init_jac : Option (Mat m n)) (method : String)
    (x_scale : XScaleArg n) (ftol xtol gtol : Option ℚ) (maxiter : Option ℕ)
    (callback : Option (Vec n → OptimizeResult m n → Bool))
    (options : LSOptions) : LSOutcome m n :=
  match least_squares_setup co x0 jac init_jac method x_scale ftol xtol gtol
      maxiter callback options with
  | .error e => .configError e
  | .ok p => lsq_run p.1 fuel p.2

/-! ## Concrete one-dimensional instances used as inputs of the claims -/

/-- Concrete collaborators for the one-dimensional problem
`fun(x) = x - 3` with exact gradient of `½ fun²`, Euclidean norm `|·|`,
identity square root stand-in, the trivial 1×1 QR factorization
`A = [[1]]·A`, a 1×1 `qr_update` returning `(Q, R + u·vᵀ)` (a valid QR
update whenever `Q = [[1]]`), and the spec-modelled dogleg solver. -/
def co1 : Collab 1 1 :=
  { f_fun := fun x => fun _ => x 0 - 3
    g_fun := fun x => fun _ => x 0 - 3
    norm2 := fun v => |v 0|
    sqrtQ := id
    qrFac := fun A => (eyeRect 1 1, A)
    qrUpd := fun Q R u v => (Q, R + vecMulVec u v)
    subDogleg := solve_trust_region_dogleg (fun v => |v 0|) id
    subSubspace := solve_trust_region_dogleg (fun v => |v 0|) id
    solveGA := fun st dg => solve_upper st.R (st.Qᵀ.mulVec dg) }

/-- The infinity norm of a one-dimensional vector is the absolute value of
its entry. -/
lemma normInfQ_one (v : Vec 1) : normInfQ v = |v 0| := by
  simp [normInfQ, max_eq_left, abs_nonneg]

/-- Backward substitution on a 1×1 system. -/
lemma solve_upper_one (R : Mat 1 1) (b : Vec 1) (i : Fin 1) :
    solve_upper R b i = b 0 / R 0 0 := by
  have hi : i = 0 := Subsingleton.elim _ _
  subst hi
  simp [solve_upper, solve_step, List.finRange]

/-- The configuration built by the prologue for the one-dimensional run of
`least_squares` on `co1` with `jac="broyden"`, `x_scale=1`, default options
and a callback. -/
def cfgC1 : LSConfig 1 1 :=
  { co := co1
    jacfun := none
    sub := co1.subDogleg
    jac_scale := false
    ftol := some (1/1000000)
    xtol := some (1/1000000)
    gtol := some (1/1000000)
    maxiter := 100
    max_nfev := 100
    max_ngev := 100
    max_njev := 100
    step_accept_threshold := 15/100
    jac_recompute_iters := []
    ga_fd_step := 1/10
    ga_accept_threshold := 0
    max_trust_radius := 0
    min_trust_radius := 0
    tr_increase_threshold := 3/4
    tr_decrease_threshold := 1/4
    tr_increase_ratio := 2
    tr_decrease_ratio := 1/4
    callback := some fun _ _ => false }

/-- The initial loop state of the same run: `x0 = 0`, `f = -3`,
`cost = 9/2`, identity Jacobian model, initial trust radius clamped from
`‖x0‖ = 0` to `1`. -/
def stC1 : LoopState 1 1 :=
  { x := fun _ => 0
    f := fun _ => -3
    cost := 9/2
    g := fun _ => -3
    jacSt := ⟨eyeRect 1 1, eyeRect 1 1, true, .eye⟩
    scale := fun _ => 1
    scale_inv := fun _ => 1
    trust_radius := 1
    g_norm := 3
    x_norm := 0
    step_norm := .top
    actual_reduction := .top
    dg_norm := .top
    ratio := 1
    nfev := 1
    ngev := 1
    njev := 0
    iteration := 0
    resultVar := none }

lemma setup_C1 : least_squares_setup co1 (fun _ => 0) (.sentinel "broyden")
    none "dogleg" (.fixed fun _ => 1) (some (1/1000000)) (some (1/1000000))
    (some (1/1000000)) none (some fun _ _ => false) {} = .ok (cfgC1, stC1) := by
  norm_num [least_squares_setup, co1, qrjacobian_init, qr_get_scale,
    compute_jac_scale, JacArg.isCallable, arange, cfgC1, stC1, normInfQ_one,
    funext_iff, Fin.forall_fin_one, abs_eq_max_neg, max_def, min_def,
    Prod.ext_iff, default_step_accept_threshold, Matrix.dotProduct,
    Fin.sum_univ_one]

lemma dogleg_C1 : co1.subDogleg (fun _ => -3)
    ⟨eyeRect 1 1, eyeRect 1 1, true, .eye⟩ (fun _ => 1) 1 (fun _ => -3) =
    .ok (fun _ => 1, true) := by
  norm_num [co1, solve_trust_region_dogleg, qr_solve, solve_upper_one,
    eyeRect, Matrix.mulVec, Matrix.dotProduct, Matrix.transpose_apply,
    Matrix.of_apply, Fin.sum_univ_one, Fin.exists_fin_one, funext_iff,
    Fin.forall_fin_one, abs_eq_max_neg, max_def, min_def, Prod.ext_iff]

lemma iterate_C1 : lsq_iterate cfgC1 stC1 = .fail .unboundLocalResult := by
  have hrec : recompute_phase cfgC1 stC1 = stC1 := by
    simp [recompute_phase, cfgC1]
  rw [lsq_iterate, hrec]
  have hterm : (check_termination stC1.actual_reduction stC1.cost
      stC1.step_norm stC1.x_norm stC1.dg_norm stC1.g_norm stC1.ratio
      cfgC1.ftol cfgC1.xtol cfgC1.gtol stC1.iteration cfgC1.maxiter
      stC1.nfev cfgC1.max_nfev stC1.ngev cfgC1.max_ngev stC1.njev
      cfgC1.max_njev).1 = none := by
    norm_num [check_termination, QInf.ltb, cfgC1, stC1]
  rw [hterm]
  have hsub : cfgC1.sub stC1.g stC1.jacSt stC1.scale stC1.trust_radius stC1.f =
      .ok (fun _ => 1, true) := dogleg_C1
  rw [hsub]
  show lsq_after_sub cfgC1 stC1 (fun _ => 1) true = .fail .unboundLocalResult
  norm_num [lsq_after_sub, cfgC1, stC1, update_tr_radius,
    evaluate_quadratic_form, eyeRect, Matrix.mulVec, Matrix.dotProduct,
    Matrix.of_apply, Fin.sum_univ_one, funext_iff, Fin.forall_fin_one,
    max_def, min_def, Pi.add_apply, Pi.sub_apply, co1]

/-- Claim C1: the claim says that with a callback supplied, after every
accepted step the callback is invoked with a copy of the iterate and an
OptimizeResult state record, and that a `True` return stops the driver with
`success=None` and a dedicated message.  The code contradicts this (and its
own docstring): the call site reads the local variable `result`, which is
assigned only on the termination paths, each immediately followed by
`break`; so at the first accepted step the callback invocation raises
`UnboundLocalError` instead.  Witnessed end to end on the one-dimensional
problem `fun(x) = x - 3` from `x0 = 0` with `jac="broyden"` and default
options, whose first trial step is accepted. -/
theorem claim_C1 : least_squares 3 co1 (fun _ => 0) (.sentinel "broyden") none
    "dogleg" (.fixed fun _ => 1) (some (1/1000000)) (some (1/1000000))
    (some (1/1000000)) none (some fun _ _ => false) {} =
    .pyError .unboundLocalResult := by
  rw [least_squares, setup_C1]
  show lsq_run cfgC1 3 stC1 = _
  rw [lsq_run, iterate_C1]

/-- The configuration built by the prologue for the one-dimensional run
with `jac="broyden"`, a supplied singular initial Jacobian and no
callback. -/
def cfgC2 : LSConfig 1 1 :=
  { co := co1
    jacfun := none
    sub := co1.subDogleg
    jac_scale := false
    ftol := some (1/1000000)
    xtol := some (1/1000000)
    gtol := some (1/1000000)
    maxiter := 100
    max_nfev := 100
    max_ngev := 100
    max_njev := 100
    step_accept_threshold := 15/100
    jac_recompute_iters := []
    ga_fd_step := 1/10
    ga_accept_threshold := 0
    max_trust_radius := 0
    min_trust_radius := 0
    tr_increase_threshold := 3/4
    tr_decrease_threshold := 1/4
    tr_increase_ratio := 2
    tr_decrease_ratio := 1/4
    callback := none }

/-- The initial loop state of the same run: the supplied `init_jac = [[0]]`
is factorized by the concrete `qrFac` of `co1` as `Q = [[1]]`,
`R = [[0]]`. -/
def stC2 : LoopState 1 1 :=
  { x := fun _ => 0
    f := fun _ => -3
    cost := 9/2
    g := fun _ => -3
    jacSt := ⟨eyeRect 1 1, 0, true, .initJac⟩
    scale := fun _ => 1
    scale_inv := fun _ => 1
    trust_radius := 1
    g_norm := 3
    x_norm := 0
    step_norm := .top
    actual_reduction := .top
    dg_norm := .top
    ratio := 1
    nfev := 1
    ngev := 1
    njev := 0
    iteration := 0
    resultVar := none }

lemma setup_C2 : least_squares_setup co1 (fun _ => 0) (.sentinel "broyden")
    (some 0) "dogleg" (.fixed fun _ => 1) (some (1/1000000))
    (some (1/1000000)) (some (1/1000000)) none none {} = .ok (cfgC2, stC2) := by
  norm_num [least_squares_setup, co1, qrjacobian_init, qr_get_scale,
    compute_jac_scale, JacArg.isCallable, arange, cfgC2, stC2, normInfQ_one,
    funext_iff, Fin.forall_fin_one, abs_eq_max_neg, max_def, min_def,
    Prod.ext_iff, default_step_accept_threshold, Matrix.dotProduct,
    Fin.sum_univ_one]

lemma iterate_C2 : lsq_iterate cfgC2 stC2 = .done (result_of_err stC2) := by
  have hrec : recompute_phase cfgC2 stC2 = stC2 := by
    simp [recompute_phase, cfgC2]
  rw [lsq_iterate, hrec]
  have hterm : (check_termination stC2.actual_reduction stC2.cost
      stC2.step_norm stC2.x_norm stC2.dg_norm stC2.g_norm stC2.ratio
      cfgC2.ftol cfgC2.xtol cfgC2.gtol stC2.iteration cfgC2.maxiter
      stC2.nfev cfgC2.max_nfev stC2.ngev cfgC2.max_ngev stC2.njev
      cfgC2.max_njev).1 = none := by
    norm_num [check_termination, QInf.ltb, cfgC2, stC2]
  rw [hterm]
  have hsub : cfgC2.sub stC2.g stC2.jacSt stC2.scale stC2.trust_radius stC2.f =
      .error () := by
    norm_num [co1, cfgC2, stC2, solve_trust_region_dogleg, qr_solve,
      Fin.exists_fin_one, Matrix.zero_apply]
  rw [hsub]

/-- Claim C2: the claim says every termination path returns a record with
the fields `x, success, cost, fun, grad, jac` (materialized), `optimality,
nfev, ngev, njev, nit, message`, and in particular that a `LinAlgError`
during the subproblem solve terminates the whole loop without retry with
`success=False` and a dedicated message and this same set of fields.  The
`LinAlgError` construction site (lines 272-287) indeed terminates the loop
at once with `success=False`, the dedicated message and all the other
fields — but it passes the materialized matrix under the keyword `hess`
and passes no `jac` keyword, unlike every other termination path of the
same function; the claimed `jac` field is absent there.  Witnessed end to
end on a run whose supplied initial Jacobian is the singular `[[0]]`, so
the dogleg solve fails at iteration 0. -/
theorem claim_C2 : (least_squares 3 co1 (fun _ => 0) (.sentinel "broyden")
    (some 0) "dogleg" (.fixed fun _ => 1) (some (1/1000000))
    (some (1/1000000)) (some (1/1000000)) none none {}).getRes = some
    { x := fun _ => 0
      success := some false
      cost := 9/2
      fvec := fun _ => -3
      grad := fun _ => -3
      jac := none
      hess := some 0
      optimality := 3
      nfev := 1
      ngev := 1
      njev := 0
      nit := 0
      message := msg_err } := by
  rw [least_squares, setup_C2]
  show (lsq_run cfgC2 3 stC2).getRes = _
  rw [lsq_run, iterate_C2]
  norm_num [LSOutcome.getRes, result_of_err, stC2, qr_matrix,
    OptimizeResult.mk.injEq]

/-! ## Claims about the derivative models -/

/-- Claim C4: when `_bfgs_update` runs with nonzero `s = Δx`, `y = Δgrad`
and the curvature condition is violated (`sᵀy ≤ min_curvature·sᵀHs`), then
under `skip_update` the stored factor is returned unchanged, and under
`damp_update` — whenever the divisions of the damping formula are defined,
i.e. `sᵀHs ≠ 0` and `sᵀy ≠ sᵀHs` (the excluded case is the open question of
claim C8) — `y` is replaced by the stated convex blend of `y` and `H·s`,
the blend satisfies `sᵀy₂ = min_curvature·sᵀHs` exactly, and the two rank-1
Cholesky factor updates are then applied to it. -/
theorem claim_C4 {n : ℕ} (cholUpd : Mat n n → Vec n → ℚ → Mat n n)
    (min_curvature : ℚ) (U : Mat n n) (s y : Vec n)
    (hs : s ≠ 0) (hy : y ≠ 0)
    (hviol : s ⬝ᵥ y ≤ min_curvature * (cholesky_dot U s ⬝ᵥ s)) :
    (bfgs_update cholUpd min_curvature .skipUpdate U s y = U) ∧
    (cholesky_dot U s ⬝ᵥ s ≠ 0 → s ⬝ᵥ y ≠ cholesky_dot U s ⬝ᵥ s →
      (s ⬝ᵥ (fun i =>
          ((1 - min_curvature) / (1 - s ⬝ᵥ y / (cholesky_dot U s ⬝ᵥ s))) * y i +
          (1 - (1 - min_curvature) / (1 - s ⬝ᵥ y / (cholesky_dot U s ⬝ᵥ s))) *
            cholesky_dot U s i) =
        min_curvature * (cholesky_dot U s ⬝ᵥ s)) ∧
      bfgs_update cholUpd min_curvature .dampUpdate U s y =
        bfgs_apply cholUpd U
          (fun i =>
            ((1 - min_curvature) / (1 - s ⬝ᵥ y / (cholesky_dot U s ⬝ᵥ s))) * y i +
            (1 - (1 - min_curvature) / (1 - s ⬝ᵥ y / (cholesky_dot U s ⬝ᵥ s))) *
              cholesky_dot U s i)
          (s ⬝ᵥ fun i =>
            ((1 - min_curvature) / (1 - s ⬝ᵥ y / (cholesky_dot U s ⬝ᵥ s))) * y i +
            (1 - (1 - min_curvature) / (1 - s ⬝ᵥ y / (cholesky_dot U s ⬝ᵥ s))) *
              cholesky_dot U s i)
          (cholesky_dot U s) (cholesky_dot U s ⬝ᵥ s)) := by
  constructor
  · simp [bfgs_update, hs, hy, hviol]
  · intro hBs0 hne
    constructor
    · have hexp : ∀ t : ℚ,
          (s ⬝ᵥ fun i => t * y i + (1 - t) * cholesky_dot U s i) =
          t * (s ⬝ᵥ y) + (1 - t) * (cholesky_dot U s ⬝ᵥ s) := by
        intro t
        have hB : (cholesky_dot U s ⬝ᵥ s) = s ⬝ᵥ cholesky_dot U s :=
          Matrix.dotProduct_comm _ _
        rw [hB]
        simp only [Matrix.dotProduct, mul_add, Finset.sum_add_distrib,
          Finset.mul_sum]
        congr 1 <;> exact Finset.sum_congr rfl fun i _ => by ring
      rw [hexp]
      have hD : cholesky_dot U s ⬝ᵥ s - s ⬝ᵥ y ≠ 0 :=
        sub_ne_zero.mpr (Ne.symm hne)
      have ha : (1 : ℚ) - s ⬝ᵥ y / (cholesky_dot U s ⬝ᵥ s) =
          (cholesky_dot U s ⬝ᵥ s - s ⬝ᵥ y) / (cholesky_dot U s ⬝ᵥ s) := by
        field_simp
      rw [ha, div_div_eq_mul_div]
      field_simp [hD]
      ring
    · simp [bfgs_update, hs, hy, hviol]

/-- Witness for claim C4 at a one-dimensional input: `U = [[1]]`,
`s = (1)`, `y = (-1)`, default damp curvature `1/5`: the curvature
condition is violated, the skip strategy leaves the factor unchanged, and
with the constant-output rank-1 update stand-in the damp strategy produces
the doubly-updated factor. -/
theorem claim_C4_witness :
    (((fun _ => (1 : ℚ)) : Vec 1) ⬝ᵥ ((fun _ => (-1 : ℚ)) : Vec 1) ≤
      1/5 * (cholesky_dot (eyeRect 1 1) (fun _ => 1) ⬝ᵥ fun _ => 1)) ∧
    bfgs_update (fun U _ _ => U) (1/5) .skipUpdate (eyeRect 1 1)
      (fun _ => 1) (fun _ => -1) = eyeRect 1 1 ∧
    bfgs_update (fun U _ _ => U) (1/5) .dampUpdate (eyeRect 1 1)
      (fun _ => 1) (fun _ => -1) = eyeRect 1 1 := by
  have hs : ((fun _ => (1 : ℚ)) : Vec 1) ≠ 0 := by
    intro h
    exact one_ne_zero (congrFun h 0)
  have hy : ((fun _ => (-1 : ℚ)) : Vec 1) ≠ 0 := by
    intro h
    exact neg_ne_zero.mpr one_ne_zero (congrFun h 0)
  have hviol : ((fun _ => (1 : ℚ)) : Vec 1) ⬝ᵥ ((fun _ => (-1 : ℚ)) : Vec 1) ≤
      1/5 * (cholesky_dot (eyeRect 1 1) (fun _ => 1) ⬝ᵥ fun _ => 1) := by
    norm_num [Matrix.dotProduct, cholesky_dot, Matrix.mulVec, eyeRect,
      Matrix.transpose_apply, Matrix.of_apply, Fin.sum_univ_one]
  have h := claim_C4 (fun U _ _ => U) (1/5) (eyeRect 1 1)
    (fun _ => 1) (fun _ => -1) hs hy hviol
  have hBs0 : cholesky_dot (eyeRect 1 1) (fun _ => (1:ℚ)) ⬝ᵥ (fun _ => (1:ℚ)) ≠ 0 := by
    norm_num [Matrix.dotProduct, cholesky_dot, Matrix.mulVec, eyeRect,
      Matrix.transpose_apply, Matrix.of_apply, Fin.sum_univ_one]
  have hne : ((fun _ => (1:ℚ)) : Vec 1) ⬝ᵥ ((fun _ => (-1:ℚ)) : Vec 1) ≠
      cholesky_dot (eyeRect 1 1) (fun _ => (1:ℚ)) ⬝ᵥ (fun _ => (1:ℚ)) := by
    norm_num [Matrix.dotProduct, cholesky_dot, Matrix.mulVec, eyeRect,
      Matrix.transpose_apply, Matrix.of_apply, Fin.sum_univ_one]
  exact ⟨hviol, h.1, (h.2 hBs0 hne).2⟩

/-- Claim C5: for nonzero `Δx` and `Δf`, `_broyden_update` hands the
factors and the Broyden vectors `u = (Δf − A·Δx)/‖Δx‖²` (embedded with
`‖Δx‖² = Δx·Δx`), `v = Δx` to the external QR-update kernel rather than
refactorizing, and whenever that kernel meets its documented contract
(`Q'·R' = Q·R + u·vᵀ`, the scipy `qr_update` contract) the represented
matrix becomes `A + u·vᵀ`. -/
theorem claim_C5 {m n : ℕ}
    (qrUpd : Mat m n → Mat n n → Vec m → Vec n → Mat m n × Mat n n)
    (st : QRState m n) (delta_x : Vec n) (delta_f : Vec m)
    (hdx : delta_x ≠ 0) (hdf : delta_f ≠ 0) (u : Vec m)
    (hu : u = fun i =>
      (delta_f i - (qr_matrix st).mulVec delta_x i) / (delta_x ⬝ᵥ delta_x)) :
    (broyden_update qrUpd st delta_x delta_f =
      { st with
        Q := (qrUpd st.Q st.R u delta_x).1
        R := (qrUpd st.Q st.R u delta_x).2 }) ∧
    ((qrUpd st.Q st.R u delta_x).1 * (qrUpd st.Q st.R u delta_x).2 =
        qr_matrix st + vecMulVec u delta_x →
      qr_matrix (broyden_update qrUpd st delta_x delta_f) =
        qr_matrix st + vecMulVec u delta_x) := by
  have hu' : u = fun i =>
      (delta_f i - (st.Q.mulVec (st.R.mulVec delta_x)) i) /
        (delta_x ⬝ᵥ delta_x) := by
    rw [hu]
    funext i
    rw [qr_matrix, ← Matrix.mulVec_mulVec]
  have hstruct : broyden_update qrUpd st delta_x delta_f =
      { st with
        Q := (qrUpd st.Q st.R u delta_x).1
        R := (qrUpd st.Q st.R u delta_x).2 } := by
    rw [broyden_update, if_neg hdx, if_neg hdf, ← hu']
  refine ⟨hstruct, fun hc => ?_⟩
  rw [hstruct, qr_matrix]
  exact hc

/-- Witness for claim C5 on a 1×1 identity model with `Δx = (1)`,
`Δf = (2)` and a QR-update stand-in satisfying the scipy contract there. -/
theorem claim_C5_witness :
    ((fun _ => (1 : ℚ)) : Vec 1) ≠ 0 ∧
    qr_matrix (broyden_update (fun Q R u v => (Q, R + vecMulVec u v))
        ⟨eyeRect 1 1, eyeRect 1 1, true, .eye⟩ (fun _ => 1) (fun _ => 2)) =
      qr_matrix (⟨eyeRect 1 1, eyeRect 1 1, true, .eye⟩ : QRState 1 1) +
        vecMulVec (fun i => ((fun _ => (2:ℚ)) i -
          (qr_matrix (⟨eyeRect 1 1, eyeRect 1 1, true, .eye⟩ : QRState 1 1)).mulVec
            (fun _ => 1) i) / (((fun _ => (1:ℚ)) : Vec 1) ⬝ᵥ ((fun _ => (1:ℚ)) : Vec 1)))
          (fun _ => 1) := by
  have hdx : ((fun _ => (1 : ℚ)) : Vec 1) ≠ 0 := by
    intro h
    exact one_ne_zero (congrFun h 0)
  have hdf : ((fun _ => (2 : ℚ)) : Vec 1) ≠ 0 := by
    intro h
    exact two_ne_zero (congrFun h 0)
  have h := claim_C5 (fun Q R u v => (Q, R + vecMulVec u v))
    ⟨eyeRect 1 1, eyeRect 1 1, true, .eye⟩ (fun _ => 1) (fun _ => 2)
    hdx hdf _ rfl
  refine ⟨hdx, h.2 ?_⟩
  show eyeRect 1 1 * (eyeRect 1 1 + vecMulVec _ _) = _
  rw [qr_matrix]
  show eyeRect 1 1 * (eyeRect 1 1 + vecMulVec _ _) =
    eyeRect 1 1 * eyeRect 1 1 + vecMulVec _ _
  have hone : eyeRect 1 1 = (1 : Mat 1 1) := by
    funext i j
    have hi : i = 0 := Subsingleton.elim _ _
    have hj : j = 0 := Subsingleton.elim _ _
    subst hi hj
    simp [eyeRect, Matrix.one_apply]
  rw [hone]
  simp

/-- Claim C7: an `update` call on either derivative model whose `Δx` is the
zero vector, or whose `Δy` (residual change for the Jacobian, gradient
change for the Hessian) is the zero vector, returns the stored state
unchanged, for any external kernels. -/
theorem claim_C7 {m n : ℕ}
    (qrUpd : Mat m n → Mat n n → Vec m → Vec n → Mat m n × Mat n n)
    (qrFac : Mat m n → Mat m n × Mat n n) (jacfun : Option (Vec n → Mat m n))
    (cholUpd : Mat n n → Vec n → ℚ → Mat n n) (sqrtQ : ℚ → ℚ)
    (recomputeU : Vec n → Mat n n) (min_curvature : ℚ)
    (strategy : ExcStrategy) (qst : QRState m n) (cst : CholState n)
    (x_new x_old : Vec n) (f_new f_old : Vec m) (grad_new grad_old : Vec n) :
    (x_new - x_old = 0 ∨ f_new - f_old = 0 →
      qrjacobian_update qrUpd qrFac jacfun qst x_new x_old f_new f_old = qst) ∧
    (x_new - x_old = 0 ∨ grad_new - grad_old = 0 →
      cholesky_update cholUpd sqrtQ recomputeU min_curvature strategy cst
        x_new x_old grad_new grad_old = cst) := by
  constructor
  · rintro (h | h)
    · simp [qrjacobian_update, h]
    · by_cases hdx : x_new - x_old = 0 <;> simp [qrjacobian_update, hdx, h]
  · rintro (h | h)
    · simp [cholesky_update, h]
    · by_cases hdx : x_new - x_old = 0 <;> simp [cholesky_update, hdx, h]

/-- Witness for claim C7: a zero step on one-dimensional models leaves both
stored factorizations unchanged. -/
theorem claim_C7_witness :
    (((fun _ => (2:ℚ)) : Vec 1) - fun _ => 2) = 0 ∧
    qrjacobian_update (fun Q R _ _ => (Q, R)) (fun A => (A, 0)) none
      ⟨eyeRect 1 1, eyeRect 1 1, true, .eye⟩ (fun _ => 2) (fun _ => 2)
      (fun _ => 5) (fun _ => 4) = ⟨eyeRect 1 1, eyeRect 1 1, true, .eye⟩ ∧
    cholesky_update (fun U _ _ => U) id (fun _ => eyeRect 1 1) (1/5)
      .dampUpdate ⟨eyeRect 1 1, true, .eye⟩ (fun _ => 2) (fun _ => 2)
      (fun _ => 5) (fun _ => 4) = ⟨eyeRect 1 1, true, .eye⟩ := by
  have hz : (((fun _ => (2:ℚ)) : Vec 1) - fun _ => 2) = 0 := sub_self _
  have h := claim_C7 (fun Q R _ _ => (Q, R)) (fun A => (A, 0)) none
    (fun U _ _ => U) id (fun _ => eyeRect 1 1) (1/5) .dampUpdate
    ⟨eyeRect 1 1, eyeRect 1 1, true, .eye⟩ ⟨eyeRect 1 1, true, .eye⟩
    (fun _ => 2) (fun _ => 2) (fun _ => 5) (fun _ => 4) (fun _ => 5)
    (fun _ => 4)
  exact ⟨hz, h.1 (Or.inl hz), h.2 (Or.inl hz)⟩

/-- The stored state exhibiting the unguarded division of claim C8: a
singular factor with `U·s = 0`. -/
def matC8 : Mat 2 2 := Matrix.of fun i j => if (i : ℕ) = 1 ∧ (j : ℕ) = 1 then 1 else 0

/-- The step direction of the claim C8 input. -/
def sC8 : Vec 2 := fun i => if (i : ℕ) = 0 then 1 else 0

/-- The gradient change of the claim C8 input. -/
def yC8 : Vec 2 := fun i => if (i : ℕ) = 1 then 1 else 0

/-- The damped vector `update_factor·y + (1−update_factor)·B·s` computed by
the `damp_update` branch at the claim C8 input, with the division
`sy/sBs` read as total rational division. -/
def y2C8 : Vec 2 := fun i =>
  ((1 - default_min_curvature .dampUpdate) /
    (1 - sC8 ⬝ᵥ yC8 / (cholesky_dot matC8 sC8 ⬝ᵥ sC8))) * yC8 i +
  (1 - (1 - default_min_curvature .dampUpdate) /
    (1 - sC8 ⬝ᵥ yC8 / (cholesky_dot matC8 sC8 ⬝ᵥ sC8))) * cholesky_dot matC8 sC8 i

/-- Claim C8: the `damp_update` branch computes
`update_factor = (1 − min_curvature)/(1 − sy/sBs)` with no guard for
`sBs = sy` or `sBs = 0`.  At the stored factor `U = [[0,0],[0,1]]` with
`s = (1,0)`, `y = (0,1)` and the default damp `min_curvature = 1/5`, both
`Δx` and `Δy` are nonzero, the curvature condition is met with
`sy = sBs = 0`, and the code still takes the damp branch and performs the
division and the two factor updates instead of skipping — for every rank-1
update kernel. -/
theorem claim_C8 (cholUpd : Mat 2 2 → Vec 2 → ℚ → Mat 2 2) :
    sC8 ≠ 0 ∧ yC8 ≠ 0 ∧
    sC8 ⬝ᵥ yC8 ≤ default_min_curvature .dampUpdate *
      (cholesky_dot matC8 sC8 ⬝ᵥ sC8) ∧
    sC8 ⬝ᵥ yC8 = cholesky_dot matC8 sC8 ⬝ᵥ sC8 ∧
    cholesky_dot matC8 sC8 ⬝ᵥ sC8 = 0 ∧
    bfgs_update cholUpd (default_min_curvature .dampUpdate) .dampUpdate
      matC8 sC8 yC8 =
      bfgs_apply cholUpd matC8 y2C8 (sC8 ⬝ᵥ y2C8) (cholesky_dot matC8 sC8)
        (cholesky_dot matC8 sC8 ⬝ᵥ sC8) := by
  have hs : sC8 ≠ 0 := by
    intro h
    have := congrFun h 0
    norm_num [sC8] at this
  have hy : yC8 ≠ 0 := by
    intro h
    have := congrFun h 1
    norm_num [yC8] at this
  have hsy : sC8 ⬝ᵥ yC8 = 0 := by
    norm_num [sC8, yC8, Matrix.dotProduct, Fin.sum_univ_two]
  have hsBs : cholesky_dot matC8 sC8 ⬝ᵥ sC8 = 0 := by
    norm_num [sC8, matC8, cholesky_dot, Matrix.dotProduct, Matrix.mulVec,
      Matrix.transpose_apply, Matrix.of_apply, Fin.sum_univ_two]
  refine ⟨hs, hy, by rw [hsy, hsBs]; norm_num [default_min_curvature],
    by rw [hsy, hsBs], hsBs, ?_⟩
  rw [bfgs_update, if_neg hs, if_neg hy, if_pos (by rw [hsy, hsBs]; norm_num)]
  rfl

/-! ## Claims about the driver loop -/

/-- The ratio returned by the modelled `update_tr_radius`. -/
lemma update_tr_radius_ratio (trust_radius actual_reduction
    predicted_reduction step_h_norm : ℚ) (hits_boundary : Bool)
    (mx mn it ir dt dr : ℚ) :
    (update_tr_radius trust_radius actual_reduction predicted_reduction
      step_h_norm hits_boundary mx mn it ir dt dr).2 =
    if predicted_reduction ≤ 0 then 0
    else actual_reduction / predicted_reduction := rfl

/-- Claim C3: on every driver iteration that reaches the trial step (with
the default geodesic acceleration disabled and no callback), the new trust
radius is the one computed by `update_tr_radius` from the actual/predicted
reduction ratio whether or not the step is accepted; the trial point is
committed only when the ratio exceeds `step_accept_threshold` (whose
default is 0.15), a rejected step leaves `x`, `f`, `g` and `cost`
unchanged, and an accepted step strictly decreases `cost` (given the
threshold is nonnegative, as the default is). -/
theorem claim_C3 {m n : ℕ} (cfg : LSConfig m n) (st : LoopState m n)
    (step_h : Vec n) (hb : Bool)
    (hga : cfg.ga_accept_threshold ≤ 0) (hcb : cfg.callback = none)
    (hthr : 0 ≤ cfg.step_accept_threshold)
    (pred ared cost_new : ℚ) (trr : ℚ × ℚ) (x_new : Vec n) (f_new : Vec m)
    (hpred : pred = st.cost -
      evaluate_quadratic_form step_h st.cost st.g st.jacSt st.scale)
    (hxnew : x_new = st.x + fun i => st.scale i * step_h i)
    (hfnew : f_new = cfg.co.f_fun x_new)
    (hcost : cost_new = 1/2 * (f_new ⬝ᵥ f_new))
    (hared : ared = st.cost - cost_new)
    (htrr : trr = update_tr_radius st.trust_radius ared pred
      (cfg.co.norm2 step_h) hb cfg.max_trust_radius cfg.min_trust_radius
      cfg.tr_increase_threshold cfg.tr_increase_ratio
      cfg.tr_decrease_threshold cfg.tr_decrease_ratio) :
    ∃ st', lsq_after_sub cfg st step_h hb = .next st' ∧
      st'.trust_radius = trr.1 ∧
      (trr.2 ≤ cfg.step_accept_threshold →
        st'.x = st.x ∧ st'.f = st.f ∧ st'.g = st.g ∧ st'.cost = st.cost) ∧
      (cfg.step_accept_threshold < trr.2 →
        st'.x = x_new ∧ st'.cost = cost_new ∧ st'.cost < st.cost) ∧
      default_step_accept_threshold = 15/100 := by
  subst hpred hxnew hfnew hcost hared htrr
  have hga' : (0 < cfg.ga_accept_threshold) = False :=
    eq_false (not_lt.mpr hga)
  by_cases hacc : cfg.step_accept_threshold <
      (update_tr_radius st.trust_radius
        (st.cost - 1/2 * (cfg.co.f_fun (st.x + fun i => st.scale i * step_h i) ⬝ᵥ
          cfg.co.f_fun (st.x + fun i => st.scale i * step_h i)))
        (st.cost - evaluate_quadratic_form step_h st.cost st.g st.jacSt st.scale)
        (cfg.co.norm2 step_h) hb cfg.max_trust_radius cfg.min_trust_radius
        cfg.tr_increase_threshold cfg.tr_increase_ratio
        cfg.tr_decrease_threshold cfg.tr_decrease_ratio).2
  · -- accepted step
    have hcost_lt : 1/2 * (cfg.co.f_fun (st.x + fun i => st.scale i * step_h i) ⬝ᵥ
        cfg.co.f_fun (st.x + fun i => st.scale i * step_h i)) < st.cost := by
      rw [update_tr_radius_ratio] at hacc
      by_cases hp : st.cost -
          evaluate_quadratic_form step_h st.cost st.g st.jacSt st.scale ≤ 0
      · rw [if_pos hp] at hacc
        exact absurd (lt_of_le_of_lt hthr hacc) (lt_irrefl 0)
      · rw [if_neg hp] at hacc
        have hp' : 0 < st.cost -
            evaluate_quadratic_form step_h st.cost st.g st.jacSt st.scale :=
          lt_of_not_le hp
        have := (lt_div_iff₀ hp').mp hacc
        have hnn : 0 ≤ cfg.step_accept_threshold *
            (st.cost - evaluate_quadratic_form step_h st.cost st.g st.jacSt st.scale) :=
          mul_nonneg hthr (le_of_lt hp')
        linarith
    have hacc' : (cfg.step_accept_threshold <
        (update_tr_radius st.trust_radius
          (st.cost - 1/2 * (cfg.co.f_fun (st.x + fun i => st.scale i * step_h i) ⬝ᵥ
            cfg.co.f_fun (st.x + fun i => st.scale i * step_h i)))
          (st.cost - evaluate_quadratic_form step_h st.cost st.g st.jacSt st.scale)
          (cfg.co.norm2 step_h) hb cfg.max_trust_radius cfg.min_trust_radius
          cfg.tr_increase_threshold cfg.tr_increase_ratio
          cfg.tr_decrease_threshold cfg.tr_decrease_ratio).2) = True :=
      eq_true hacc
    simp only [lsq_after_sub, hga', if_false, hcb, hacc', if_true]
    exact ⟨_, rfl, rfl, fun h => absurd hacc (not_lt.mpr h),
      fun _ => ⟨rfl, rfl, hcost_lt⟩, rfl⟩
  · -- rejected step
    have hacc' : (cfg.step_accept_threshold <
        (update_tr_radius st.trust_radius
          (st.cost - 1/2 * (cfg.co.f_fun (st.x + fun i => st.scale i * step_h i) ⬝ᵥ
            cfg.co.f_fun (st.x + fun i => st.scale i * step_h i)))
          (st.cost - evaluate_quadratic_form step_h st.cost st.g st.jacSt st.scale)
          (cfg.co.norm2 step_h) hb cfg.max_trust_radius cfg.min_trust_radius
          cfg.tr_increase_threshold cfg.tr_increase_ratio
          cfg.tr_decrease_threshold cfg.tr_decrease_ratio).2) = False :=
      eq_false hacc
    simp only [lsq_after_sub, hga', if_false, hcb, hacc', if_true]
    exact ⟨_, rfl, rfl, fun _ => ⟨rfl, rfl, rfl, rfl⟩,
      fun h => h.elim, rfl⟩

/-- Witness for claim C3 on the concrete configuration of the C2 run at its
initial state, with trial step `step_h = (1)` on the boundary: the step is
accepted, the radius follows `update_tr_radius` and the cost strictly
decreases from `9/2` to `2`. -/
theorem claim_C3_witness :
    (0 : ℚ) ≤ cfgC2.step_accept_threshold ∧
    ∃ st', lsq_after_sub cfgC2 stC2 (fun _ => 1) true = .next st' ∧
      st'.trust_radius = ((0 : ℚ), (5 : ℚ)/6).1 ∧
      (((0 : ℚ), (5 : ℚ)/6).2 ≤ cfgC2.step_accept_threshold →
        st'.x = stC2.x ∧ st'.f = stC2.f ∧ st'.g = stC2.g ∧
        st'.cost = stC2.cost) ∧
      (cfgC2.step_accept_threshold < ((0 : ℚ), (5 : ℚ)/6).2 →
        st'.x = (fun _ => 1) ∧ st'.cost = 2 ∧ st'.cost < stC2.cost) ∧
      default_step_accept_threshold = 15/100 := by
  refine ⟨by norm_num [cfgC2], claim_C3 cfgC2 stC2 (fun _ => 1) true
    (by norm_num [cfgC2]) rfl (by norm_num [cfgC2]) 3 (5/2) 2 (0, 5/6)
    (fun _ => 1) (fun _ => -2) ?_ ?_ ?_ ?_ ?_ ?_⟩
  · norm_num [stC2, evaluate_quadratic_form, Matrix.dotProduct,
      Matrix.mulVec, Matrix.zero_apply, Fin.sum_univ_one]
  · funext i
    norm_num [stC2, Pi.add_apply]
  · funext i
    norm_num [cfgC2, co1, stC2, Pi.add_apply]
  · norm_num [Matrix.dotProduct, Fin.sum_univ_one]
  · norm_num [stC2]
  · norm_num [cfgC2, co1, stC2, update_tr_radius, abs_eq_max_neg, max_def,
      min_def]

/-- The scheduled-recompute phase never shrinks `scale_inv`: its refresh
passes the current `scale_inv` as the previous one, which is max-combined
elementwise. -/
lemma recompute_phase_scale_inv_mono {m n : ℕ} (cfg : LSConfig m n)
    (st : LoopState m n) (j : Fin n) :
    st.scale_inv j ≤ (recompute_phase cfg st).scale_inv j := by
  rw [recompute_phase]
  split
  · dsimp only
    split
    · exact le_max_right _ _
    · exact le_rfl
  · exact le_rfl

/-- A previous scale vector lower-bounds the scale refresh elementwise. -/
lemma compute_jac_scale_prev_le {m n : ℕ} (sqrtQ : ℚ → ℚ) (A : Mat m n)
    (p : Vec n) (j : Fin n) :
    p j ≤ (compute_jac_scale sqrtQ A (some p)).2 j := le_max_right _ _

/-- A loop-body pass that continues never shrinks `scale_inv`: a rejected
step leaves it unchanged and an accepted refresh max-combines with the
current value. -/
lemma lsq_after_sub_scale_inv_mono {m n : ℕ} (cfg : LSConfig m n)
    (st st' : LoopState m n) (step_h : Vec n) (hb : Bool)
    (h : lsq_after_sub cfg st step_h hb = .next st') (j : Fin n) :
    st.scale_inv j ≤ st'.scale_inv j := by
  simp only [lsq_after_sub] at h
  repeat' split at h
  all_goals cases h
  all_goals try exact le_rfl
  all_goals exact compute_jac_scale_prev_le _ _ _ j

/-- Claim C6: `compute_jac_scale` returns `scale` elementwise equal to
`1/scale_inv`; every entry of `scale_inv` is strictly positive whenever the
external square root is nonnegative on nonnegative inputs, a zero column
norm being replaced by `1`; a supplied `prev_scale_inv` lower-bounds the
result elementwise; and consequently a driver iteration that continues
never decreases any entry of `scale_inv` under the auto scaling policy. -/
theorem claim_C6 {m n : ℕ} (sqrtQ : ℚ → ℚ)
    (hsqrt : ∀ q : ℚ, 0 ≤ q → 0 ≤ sqrtQ q) (A : Mat m n) (prev : Vec n) :
    (∀ (popt : Option (Vec n)) (j : Fin n),
      (compute_jac_scale sqrtQ A popt).1 j =
        1 / (compute_jac_scale sqrtQ A popt).2 j) ∧
    (∀ j : Fin n, (compute_jac_scale sqrtQ A none).2 j =
      if sqrtQ (∑ i, A i j ^ 2) = 0 then 1 else sqrtQ (∑ i, A i j ^ 2)) ∧
    (∀ (popt : Option (Vec n)) (j : Fin n),
      0 < (compute_jac_scale sqrtQ A popt).2 j) ∧
    (∀ j : Fin n, prev j ≤ (compute_jac_scale sqrtQ A (some prev)).2 j) ∧
    (∀ (cfg : LSConfig m n) (st st' : LoopState m n), cfg.jac_scale = true →
      lsq_iterate cfg st = .next st' → ∀ j, st.scale_inv j ≤ st'.scale_inv j) := by
  have hpos : ∀ j : Fin n, 0 <
      if sqrtQ (∑ i, A i j ^ 2) = 0 then 1 else sqrtQ (∑ i, A i j ^ 2) := by
    intro j
    split
    · exact one_pos
    · rename_i hne
      have h0 : 0 ≤ sqrtQ (∑ i, A i j ^ 2) :=
        hsqrt _ (Finset.sum_nonneg fun i _ => sq_nonneg _)
      exact lt_of_le_of_ne h0 (Ne.symm hne)
  refine ⟨fun popt j => rfl, fun j => rfl, ?_, ?_, ?_⟩
  · intro popt j
    cases popt with
    | none => exact hpos j
    | some p => exact lt_of_lt_of_le (hpos j) (le_max_left _ _)
  · intro j
    exact le_max_right _ _
  · intro cfg st st' _ h j
    simp only [lsq_iterate] at h
    split at h
    · cases h
    · split at h
      · cases h
      · exact le_trans (recompute_phase_scale_inv_mono cfg st j)
          (lsq_after_sub_scale_inv_mono cfg _ st' _ _ h j)

/-- Witness for claim C6 with the identity square-root stand-in on a 1×1
matrix and previous scale vector `(5)`. -/
theorem claim_C6_witness :
    (0 : ℚ) ≤ 1 ∧
    (compute_jac_scale id (eyeRect 1 1) none).1 0 =
      1 / (compute_jac_scale id (eyeRect 1 1) none).2 0 ∧
    0 < (compute_jac_scale id (eyeRect 1 1) none).2 0 ∧
    (fun _ => (5 : ℚ)) 0 ≤
      (compute_jac_scale id (eyeRect 1 1) (some fun _ => 5)).2 0 := by
  have h := claim_C6 (m := 1) (n := 1) id (fun q hq => hq) (eyeRect 1 1)
    (fun _ => 5)
  exact ⟨zero_le_one, h.1 none 0, h.2.2.1 none 0, h.2.2.2.1 0⟩

/-- Claim C9: a `method` outside dogleg/subspace, a `jac` that is neither a
callable nor the `"broyden"` sentinel, or keys remaining in the options
dict, are exactly the ways `least_squares` raises a configuration
`ValueError`, and the loop-running phase can never produce a configuration
error — validation happens before the iteration loop is entered, never
during iteration. -/
theorem claim_C9 {m n : ℕ} (fuel : ℕ) (co : Collab m n) (x0 : Vec n)
    (jac : JacArg m n) (init_jac : Option (Mat m n)) (method : String)
    (x_scale : XScaleArg n) (ftol xtol gtol : Option ℚ) (maxiter : Option ℕ)
    (callback : Option (Vec n → OptimizeResult m n → Bool))
    (options : LSOptions) :
    ((∃ e, least_squares fuel co x0 jac init_jac method x_scale ftol xtol
        gtol maxiter callback options = .configError e) ↔
      ((method ≠ "dogleg" ∧ method ≠ "subspace") ∨
        (∃ s, jac = .sentinel s ∧ s ≠ "broyden") ∨
        options.unknownKeys ≠ [])) ∧
    (∀ (cfg : LSConfig m n) (fuel' : ℕ) (st : LoopState m n)
      (e : ConfigError), lsq_run cfg fuel' st ≠ .configError e) := by
  have hrun : ∀ (cfg : LSConfig m n) (fuel' : ℕ) (st : LoopState m n)
      (e : ConfigError), lsq_run cfg fuel' st ≠ .configError e := by
    intro cfg fuel'
    induction fuel' with
    | zero =>
      intro st e h
      rw [lsq_run] at h
      cases h
    | succ k ih =>
      intro st e h
      rw [lsq_run] at h
      split at h
      · cases h
      · cases h
      · exact ih _ _ h
  have hsetup : ∀ e, (least_squares fuel co x0 jac init_jac method x_scale
      ftol xtol gtol maxiter callback options = .configError e) ↔
      (least_squares_setup co x0 jac init_jac method x_scale ftol xtol gtol
        maxiter callback options = .error e) := by
    intro e
    rw [least_squares]
    cases hs : least_squares_setup co x0 jac init_jac method x_scale ftol
        xtol gtol maxiter callback options with
    | error e' => simp
    | ok p =>
      exact ⟨fun h => absurd h (hrun _ _ _ _), fun h => by cases h⟩
  refine ⟨(exists_congr hsetup).trans ?_, hrun⟩
  constructor
  · rintro ⟨e, he⟩
    by_cases hm : method = "dogleg" ∨ method = "subspace"
    · simp only [least_squares_setup, if_pos hm] at he
      cases jac with
      | jacfn jf =>
        by_cases hu : options.unknownKeys = []
        · simp [hu] at he
        · exact Or.inr (Or.inr hu)
      | sentinel s =>
        by_cases hb : s = "broyden"
        · subst hb
          by_cases hu : options.unknownKeys = []
          · simp [hu] at he
          · exact Or.inr (Or.inr hu)
        · exact Or.inr (Or.inl ⟨s, rfl, hb⟩)
    · exact Or.inl ⟨fun h => hm (Or.inl h), fun h => hm (Or.inr h)⟩
  · rintro (⟨h1, h2⟩ | ⟨s, hjac, hs⟩ | hopt)
    · refine ⟨.badMethod, ?_⟩
      simp only [least_squares_setup]
      rw [if_neg]
      rintro (h | h)
      exacts [h1 h, h2 h]
    · by_cases hm : method = "dogleg" ∨ method = "subspace"
      · subst hjac
        refine ⟨.badJac, ?_⟩
        simp [least_squares_setup, if_pos hm, if_neg hs]
      · refine ⟨.badMethod, ?_⟩
        simp only [least_squares_setup]
        rw [if_neg hm]
    · by_cases hm : method = "dogleg" ∨ method = "subspace"
      · cases jac with
        | jacfn jf =>
          refine ⟨.unknownOptions, ?_⟩
          simp [least_squares_setup, if_pos hm, hopt]
        | sentinel s =>
          by_cases hb : s = "broyden"
          · subst hb
            refine ⟨.unknownOptions, ?_⟩
            simp [least_squares_setup, if_pos hm, hopt]
          · refine ⟨.badJac, ?_⟩
            simp [least_squares_setup, if_pos hm, if_neg hb]
      · refine ⟨.badMethod, ?_⟩
        simp only [least_squares_setup]
        rw [if_neg hm]

/-- Witness for claim C9: the invalid method string `"newton"` makes
`least_squares` return a configuration error. -/
theorem claim_C9_witness :
    ∃ e, least_squares 1 co1 (fun _ => 0) (.sentinel "broyden") none
      "newton" (.fixed fun _ => 1) none none none none none {} =
      .configError e := by
  refine (claim_C9 1 co1 (fun _ => 0) (.sentinel "broyden") none "newton"
    (.fixed fun _ => 1) none none none none none {}).1.mpr ?_
  exact Or.inl ⟨by decide, by decide⟩

/-- No element of `np.arange(1, M, k)` is zero. -/
lemma arange_not_mem_zero (M k : ℕ) : (0 : ℕ) ∉ arange 1 M k := by
  simp [arange]

/-- `1` is in `np.arange(1, M, 1)` when `M ≥ 2`. -/
lemma arange_mem_one (M : ℕ) (hM : 2 ≤ M) : (1 : ℕ) ∈ arange 1 M 1 := by
  simp only [arange, List.mem_map, List.mem_range]
  exact ⟨0, by omega, by omega⟩

/-- Claim C10: with a callable `jac` and `init_jac=None` the Jacobian model
is initialized to the identity factorization (which represents the identity
matrix) and marked uninitialized with the `jacfun` tag; the recompute
schedule `arange(1, maxiter, interval)` excludes iteration 0 and (for
`maxiter ≥ 2`, default interval 1) contains iteration 1; hence the
recompute phase of iteration 0 is the identity on the loop state — the
first subproblem is solved with the identity Jacobian estimate and
`njev = 0` — and at the start of iteration 1 the recompute phase calls the
exact Jacobian function and refactorizes. -/
theorem claim_C10 {m n : ℕ} (co : Collab m n) (jf : Vec n → Mat m n)
    (x0 : Vec n) (x_scale : XScaleArg n) (ftol xtol gtol : Option ℚ)
    (M : ℕ) (hM : 2 ≤ M) :
    qrjacobian_init m n co.qrFac none true =
      ⟨eyeRect m n, eyeRect n n, false, .jacfun⟩ ∧
    qr_matrix (⟨eyeRect m n, eyeRect n n, false, .jacfun⟩ : QRState m n) =
      eyeRect m n ∧
    (0 : ℕ) ∉ arange 1 M 1 ∧ (1 : ℕ) ∈ arange 1 M 1 ∧
    (∀ (cfg : LSConfig m n) (st : LoopState m n), st.iteration = 0 →
      cfg.jac_recompute_iters = arange 1 M 1 → recompute_phase cfg st = st) ∧
    (∀ (cfg : LSConfig m n) (st : LoopState m n), st.iteration = 1 →
      cfg.jac_recompute_iters = arange 1 M 1 → cfg.jacfun = some jf →
      (recompute_phase cfg st).njev = st.njev + 1 ∧
      (recompute_phase cfg st).jacSt.Q = (cfg.co.qrFac (jf st.x)).1 ∧
      (recompute_phase cfg st).jacSt.R = (cfg.co.qrFac (jf st.x)).2) ∧
    (∀ p : LSConfig m n × LoopState m n,
      least_squares_setup co x0 (.jacfn jf) none "dogleg" x_scale ftol xtol
        gtol (some M) none {} = .ok p →
      p.1.jac_recompute_iters = arange 1 M 1 ∧ p.1.jacfun = some jf ∧
      p.2.jacSt = ⟨eyeRect m n, eyeRect n n, false, .jacfun⟩ ∧
      p.2.njev = 0 ∧ p.2.iteration = 0) := by
  have heye : qr_matrix (⟨eyeRect m n, eyeRect n n, false, .jacfun⟩ :
      QRState m n) = eyeRect m n := by
    have h1 : eyeRect n n = (1 : Mat n n) := by
      funext i j
      simp [eyeRect, Matrix.one_apply, Fin.val_eq_val]
    rw [qr_matrix]
    show eyeRect m n * eyeRect n n = eyeRect m n
    rw [h1, Matrix.mul_one]
  refine ⟨rfl, heye, arange_not_mem_zero M 1, arange_mem_one M hM, ?_, ?_, ?_⟩
  · intro cfg st h0 hiters
    rw [recompute_phase, if_neg]
    rw [hiters, h0]
    exact arange_not_mem_zero M 1
  · intro cfg st h1 hiters hjf
    rw [recompute_phase, if_pos (by rw [hiters, h1]; exact arange_mem_one M hM)]
    refine ⟨rfl, ?_, ?_⟩ <;> simp [qrjacobian_recompute, hjf]
  · intro p h
    simp [least_squares_setup, JacArg.isCallable] at h
    rw [← h]
    refine ⟨?_, rfl, rfl, rfl, rfl⟩
    simp

/-- Witness for claim C10 at `m = n = 1`, `maxiter = 2`: the identity
initialization and the recompute schedule facts at a concrete instance. -/
theorem claim_C10_witness :
    (2 : ℕ) ≤ 2 ∧
    qrjacobian_init 1 1 co1.qrFac none true =
      ⟨eyeRect 1 1, eyeRect 1 1, false, .jacfun⟩ ∧
    (0 : ℕ) ∉ arange 1 2 1 ∧ (1 : ℕ) ∈ arange 1 2 1 := by
  have h := claim_C10 co1 (fun _ => eyeRect 1 1) (fun _ => 0)
    (.fixed fun _ => 1) none none none 2 (by norm_num)
  exact ⟨by norm_num, h.1, h.2.2.1, h.2.2.2.1⟩

end DescOpt
